import Mathlib

/-!
Shallow embedding of the valuation core of the repository: the WACC
calculator, the DCF engine (terminal value, sensitivity grid), the
GPCM and GTM comparable-multiple engines, the financial normalizer's
reconciliation checks, and the valuation conductor.

Conventions of the embedding:
* Python `Decimal` (and exact rational) arithmetic is modelled by `ℚ`.
* Python functions that may raise return `Except String α`; a raised
  exception is `Except.error`, a normal return is `Except.ok`.
  Returning a payload that merely *contains* an error message (the
  `{'error': ...}` dictionaries of the source) is a normal return.
* Python `float` exponentiation `(1 + wacc) ** -p` (used only for the
  DCF discount factors) is kept abstract as a parameter
  `fpow : ℚ → ℚ → ℚ`; every theorem quantifies over it, so nothing
  proved depends on the particular floating-point rounding.
* Python truthiness of optional numbers (`None` and `0` are falsy) is
  modelled explicitly where the source relies on it.
-/

namespace Valuation

/-- Python truthiness of an optional numeric value: `None` and `0` are falsy. -/
def truthy : Option ℚ → Bool
  | none => false
  | some x => x != 0

/-- Python `a or b` for optional numeric values. -/
def pyOr (a b : Option ℚ) : Option ℚ :=
  if truthy a then a else b

/-- Python `x if x else None` for an optional numeric value. -/
def pyTruthyOpt (a : Option ℚ) : Option ℚ :=
  if truthy a then a else none

/-! ## WACC calculator (`app/backend/valuation/wacc.py`) -/

/-- The nine numeric inputs of `WACCCalculator.calculate_wacc`. -/
structure WACCInputs where
  riskFreeRate : ℚ
  equityRiskPremium : ℚ
  beta : ℚ
  sizePremium : ℚ
  companySpecificPremium : ℚ
  costOfDebt : ℚ
  taxRate : ℚ
  debtWeight : ℚ
  equityWeight : ℚ
deriving DecidableEq

/-- The numeric fields of the dictionary returned by `calculate_wacc`. -/
structure WACCResult where
  costOfEquity : ℚ
  afterTaxCostOfDebt : ℚ
  wacc : ℚ
  equityWeight : ℚ
  debtWeight : ℚ
deriving DecidableEq

/-- Embedding of `WACCCalculator.calculate_wacc`: cost of equity is the
additive CAPM build-up, after-tax cost of debt is `kd * (1 - tax)`, and
WACC is the weighted blend.  (The weight-sum check in the source only
logs a warning and does not affect the returned values.) -/
def calculate_wacc (inputs : WACCInputs) : WACCResult :=
  let costOfEquity := inputs.riskFreeRate + inputs.beta * inputs.equityRiskPremium
    + inputs.sizePremium + inputs.companySpecificPremium
  let afterTaxCostOfDebt := inputs.costOfDebt * (1 - inputs.taxRate)
  let wacc := inputs.equityWeight * costOfEquity + inputs.debtWeight * afterTaxCostOfDebt
  { costOfEquity := costOfEquity,
    afterTaxCostOfDebt := afterTaxCostOfDebt,
    wacc := wacc,
    equityWeight := inputs.equityWeight,
    debtWeight := inputs.debtWeight }

/-! ## DCF engine (`app/backend/valuation/dcf.py`) -/

/-- The fields of the dictionary returned by a successful
`DCFValuation.calculate_dcf` call (top level plus the `detail` map). -/
structure DCFRecord where
  enterpriseValue : ℚ
  equityValue : ℚ
  pvForecastFcf : ℚ
  pvTerminalValue : ℚ
  terminalValue : ℚ
  tvMethod : String
  wacc : ℚ
  terminalGrowthRate : Option ℚ
  exitMultiple : Option ℚ
  forecastYears : ℕ
  midYearConvention : Bool
  forecastFcf : List ℚ
  discountFactors : List ℚ
  pvFcf : List ℚ
  cash : ℚ
  debt : ℚ
deriving DecidableEq

/-- A value returned (not raised) by `calculate_dcf`: either one of the
`{'error': ...}` dictionaries or the full result record. -/
inductive DCFResult where
  | err (msg : String)
  | ok (r : DCFRecord)
deriving DecidableEq

/-- Embedding of lines 65-77 of `dcf.py` (Gordon Growth terminal value):
clamp `g` to `0.8 * wacc` when `wacc <= g`, then divide; `Decimal`
division by a zero denominator raises. -/
def gordonTerminalValue (wacc g0 finalFcf : ℚ) : Except String ℚ :=
  let g := if wacc ≤ g0 then wacc * (4/5) else g0
  if wacc - g = 0 then .error "DivisionByZero"
  else .ok (finalFcf * (1 + g) / (wacc - g))

/-- Embedding of `DCFValuation.calculate_dcf`.  `fpow` stands for Python
float exponentiation, used by the source for every discount factor;
`terminalEbitda` is the optional `forecast['terminal_ebitda']` entry. -/
def calculate_dcf (fpow : ℚ → ℚ → ℚ) (cash totalDebt : ℚ) (forecastFcf : List ℚ)
    (wacc : ℚ) (terminalGrowthRate : Option ℚ) (exitMultiple : Option ℚ)
    (terminalEbitda : Option ℚ) (midYearConvention : Bool) :
    Except String DCFResult :=
  if hne : forecastFcf = [] then .ok (.err "No forecast data")
  else
    let forecastYears := forecastFcf.length
    let periods : List ℚ :=
      if midYearConvention then (List.range forecastYears).map (fun i => (i + 1 : ℚ) + 1/2)
      else (List.range forecastYears).map (fun i => (i + 1 : ℚ))
    let discountFactors := periods.map (fun p => fpow (1 + wacc) (-p))
    let pvFcf := List.zipWith (fun fcf df => fcf * df) forecastFcf discountFactors
    let totalPvFcf := pvFcf.sum
    let finalFcf := forecastFcf.getLast hne
    -- `periods` is nonempty whenever `forecastFcf` is, so the default is never read
    let tvPeriod := periods.getLast?.getD 0
    let assemble : ℚ → String → DCFResult := fun terminalValue tvMethod =>
      let tvDiscountFactor := fpow (1 + wacc) (-tvPeriod)
      let pvTerminalValue := terminalValue * tvDiscountFactor
      let enterpriseValue := totalPvFcf + pvTerminalValue
      let equityValue := enterpriseValue + cash - totalDebt
      .ok { enterpriseValue := enterpriseValue,
            equityValue := equityValue,
            pvForecastFcf := totalPvFcf,
            pvTerminalValue := pvTerminalValue,
            terminalValue := terminalValue,
            tvMethod := tvMethod,
            wacc := wacc,
            terminalGrowthRate := pyTruthyOpt terminalGrowthRate,
            exitMultiple := pyTruthyOpt exitMultiple,
            forecastYears := forecastYears,
            midYearConvention := midYearConvention,
            forecastFcf := forecastFcf,
            discountFactors := discountFactors,
            pvFcf := pvFcf,
            cash := cash,
            debt := totalDebt }
    match exitMultiple with
    | some m =>
      let te := terminalEbitda.getD (finalFcf * (3/2))
      .ok (assemble (te * m) "exit_multiple")
    | none =>
      match terminalGrowthRate with
      | some g0 =>
        match gordonTerminalValue wacc g0 finalFcf with
        | .error e => .error e
        | .ok tv => .ok (assemble tv "gordon_growth")
      | none => .ok (.err "Missing terminal value method")

/-- Sequential effectful map: the Python `for` loop that appends a result
per element and lets a raised exception propagate out of the loop. -/
def mapE {α β : Type} (f : α → Except String β) : List α → Except String (List β)
  | [] => .ok []
  | a :: as =>
    match f a with
    | .error e => .error e
    | .ok b =>
      match mapE f as with
      | .error e => .error e
      | .ok bs => .ok (b :: bs)

/-- The dictionary returned by `DCFValuation.sensitivity_analysis`. -/
structure SensitivityResult where
  waccRange : List ℚ
  growthRange : List ℚ
  sensitivityTable : List (List (Option ℚ))
  baseWacc : ℚ
  baseGrowth : ℚ
deriving DecidableEq

/-- One cell of the sensitivity grid (`dcf.py` lines 172-183): `None` when
`wacc <= growth`, otherwise `result.get('equity_value')` of the inner
`calculate_dcf` call (which is `None` exactly when that call returned an
`{'error': ...}` payload); an exception from the inner call propagates. -/
def sensitivityCell (fpow : ℚ → ℚ → ℚ) (baseFcf : List ℚ) (cash totalDebt : ℚ)
    (wacc growth : ℚ) : Except String (Option ℚ) :=
  if wacc ≤ growth then .ok none
  else
    match calculate_dcf fpow cash totalDebt baseFcf wacc (some growth) none none true with
    | .error e => .error e
    | .ok (.err _) => .ok none
    | .ok (.ok r) => .ok (some r.equityValue)

/-- Embedding of `DCFValuation.sensitivity_analysis`: a row per entry of
`wacc_range`, a cell per entry of `growth_range`. -/
def sensitivity_analysis (fpow : ℚ → ℚ → ℚ) (baseFcf : List ℚ)
    (baseWacc baseGrowth : ℚ) (waccRange growthRange : List ℚ)
    (cash totalDebt : ℚ) : Except String SensitivityResult :=
  match mapE (fun wacc =>
      mapE (fun growth => sensitivityCell fpow baseFcf cash totalDebt wacc growth)
        growthRange) waccRange with
  | .error e => .error e
  | .ok table =>
    .ok { waccRange := waccRange,
          growthRange := growthRange,
          sensitivityTable := table,
          baseWacc := baseWacc,
          baseGrowth := baseGrowth }

/-! ## Statistics helpers (Python `statistics` module) -/

/-- Insert a value into an ascending-sorted list, keeping it sorted. -/
def insertSorted (x : ℚ) : List ℚ → List ℚ
  | [] => [x]
  | y :: ys => if x ≤ y then x :: y :: ys else y :: insertSorted x ys

/-- Python `sorted` on numeric data (ascending), as a structural
insertion sort. -/
def sortAsc : List ℚ → List ℚ
  | [] => []
  | x :: xs => insertSorted x (sortAsc xs)

/-- Embedding of `statistics.median`: raises `StatisticsError` on empty data, else the
middle element of the sorted data, or the average of the two middles. -/
def median (data : List ℚ) : Except String ℚ :=
  if data = [] then .error "StatisticsError"
  else
    let s := sortAsc data
    let n := s.length
    if n % 2 = 1 then .ok (s.getD (n / 2) 0)
    else .ok ((s.getD (n / 2 - 1) 0 + s.getD (n / 2) 0) / 2)

/-- Embedding of `statistics.mean` on data known to be nonempty at its call sites. -/
def mean (data : List ℚ) : ℚ :=
  data.sum / data.length

/-! ## GPCM engine (`app/backend/valuation/gpcm.py`) -/

/-- The metrics dictionary of one comparable public company; absent keys
are `none`. -/
structure CompMetrics where
  enterpriseValue : Option ℚ := none
  revenue : Option ℚ := none
  ebitda : Option ℚ := none
  marketCap : Option ℚ := none
  netIncome : Option ℚ := none
  bookValue : Option ℚ := none
deriving DecidableEq

/-- The subject-company metrics dictionary; absent keys are `none`. -/
structure SubjectMetrics where
  revenue : Option ℚ := none
  ebitda : Option ℚ := none
  netIncome : Option ℚ := none
  bookValue : Option ℚ := none
  grossProfit : Option ℚ := none
deriving DecidableEq

/-- The multiple types `calculate_gpcm` recognises. -/
inductive MultipleType where
  | evRevenue
  | evEbitda
  | pe
  | pb
deriving DecidableEq

/-- Embedding of `GPCMValuation._calculate_multiples` for one comparable:
the ratio is kept only when the numerator is truthy (present and nonzero)
and the denominator is truthy and strictly positive. -/
def compMultiple (m : CompMetrics) : MultipleType → Option ℚ
  | .evRevenue =>
    match m.enterpriseValue, m.revenue with
    | some ev, some rev => if ev ≠ 0 ∧ rev ≠ 0 ∧ 0 < rev then some (ev / rev) else none
    | _, _ => none
  | .evEbitda =>
    match m.enterpriseValue, m.ebitda with
    | some ev, some e => if ev ≠ 0 ∧ e ≠ 0 ∧ 0 < e then some (ev / e) else none
    | _, _ => none
  | .pe =>
    match m.marketCap, m.netIncome with
    | some mc, some ni => if mc ≠ 0 ∧ ni ≠ 0 ∧ 0 < ni then some (mc / ni) else none
    | _, _ => none
  | .pb =>
    match m.marketCap, m.bookValue with
    | some mc, some bv => if mc ≠ 0 ∧ bv ≠ 0 ∧ 0 < bv then some (mc / bv) else none
    | _, _ => none

/-- Embedding of `GPCMValuation._calculate_multiples` over the whole comparable list. -/
def calculateMultiples (comps : List CompMetrics) (mt : MultipleType) : List ℚ :=
  comps.filterMap (fun c => compMultiple c mt)

/-- Embedding of `GPCMValuation._get_subject_metric`. -/
def getSubjectMetric (s : SubjectMetrics) : MultipleType → Option ℚ
  | .evRevenue => s.revenue
  | .evEbitda => s.ebitda
  | .pe => s.netIncome
  | .pb => s.bookValue

/-- One entry of `valuations_by_multiple` in the GPCM result. -/
structure GPCMEntry where
  comparableMultiples : List ℚ
  medianMultiple : ℚ
  meanMultiple : ℚ
  subjectMetric : ℚ
  indicatedValueMedian : ℚ
  indicatedValueMean : ℚ
  adjustedValueMedian : ℚ
  adjustedValueMean : ℚ
  liquidityDiscount : ℚ
deriving DecidableEq

/-- A value returned (not raised) by `calculate_gpcm`. -/
inductive GPCMResult where
  | err (msg : String)
  | ok (concludedValue : ℚ) (valuationsByMultiple : List (MultipleType × GPCMEntry))
      (liquidityDiscount : ℚ)
deriving DecidableEq

/-- The per-multiple loop of `calculate_gpcm` (lines 47-78): for each
requested type, `statistics.median` runs first (raising on an empty
multiple list), then the entry is skipped when the subject metric is
`None`, else the indicated and liquidity-adjusted values are recorded. -/
def gpcmEntries (subject : SubjectMetrics) (liquidityDiscount : ℚ) :
    List (MultipleType × List ℚ) → Except String (List (MultipleType × GPCMEntry))
  | [] => .ok []
  | (mt, mults) :: rest =>
    match median mults with
    | .error e => .error e
    | .ok medianMultiple =>
      let meanMultiple := mean mults
      match getSubjectMetric subject mt with
      | none => gpcmEntries subject liquidityDiscount rest
      | some sm =>
        let indicatedValueMedian := sm * medianMultiple
        let indicatedValueMean := sm * meanMultiple
        let discountFactor := 1 - liquidityDiscount
        let entry : GPCMEntry :=
          { comparableMultiples := mults,
            medianMultiple := medianMultiple,
            meanMultiple := meanMultiple,
            subjectMetric := sm,
            indicatedValueMedian := indicatedValueMedian,
            indicatedValueMean := indicatedValueMean,
            adjustedValueMedian := indicatedValueMedian * discountFactor,
            adjustedValueMean := indicatedValueMean * discountFactor,
            liquidityDiscount := liquidityDiscount }
        match gpcmEntries subject liquidityDiscount rest with
        | .error e => .error e
        | .ok entries => .ok ((mt, entry) :: entries)

/-- Embedding of `GPCMValuation.calculate_gpcm`. -/
def calculate_gpcm (subject : SubjectMetrics) (comps : List CompMetrics)
    (multiplesToUse : List MultipleType) (liquidityDiscount : ℚ) :
    Except String GPCMResult :=
  if comps = [] then .ok (.err "No comparable companies provided")
  else
    let compMultiplesList := multiplesToUse.map (fun mt => (mt, calculateMultiples comps mt))
    match gpcmEntries subject liquidityDiscount compMultiplesList with
    | .error e => .error e
    | .ok entries =>
      let allAdjustedValues := entries.map (fun e => e.2.adjustedValueMedian)
      let concludedValue := if allAdjustedValues ≠ [] then mean allAdjustedValues else 0
      .ok (.ok concludedValue entries liquidityDiscount)

/-! ## GTM engine (`app/backend/valuation/gtm.py`) -/

/-- The metrics dictionary of one comparable transaction. -/
structure TxnMetrics where
  enterpriseValue : Option ℚ := none
  transactionValue : Option ℚ := none
  revenue : Option ℚ := none
  ltmRevenue : Option ℚ := none
  ebitda : Option ℚ := none
  ltmEbitda : Option ℚ := none
  grossProfit : Option ℚ := none
deriving DecidableEq

/-- The multiple types `calculate_gtm` recognises. -/
inductive GTMMultipleType where
  | evRevenue
  | evEbitda
  | evGrossProfit
deriving DecidableEq

/-- Embedding of `GTMValuation._calculate_multiples` for one transaction,
with the Python `or` fallbacks on numerator and denominator. -/
def txnMultiple (m : TxnMetrics) : GTMMultipleType → Option ℚ
  | .evRevenue =>
    match pyOr m.enterpriseValue m.transactionValue, pyOr m.revenue m.ltmRevenue with
    | some ev, some rev => if ev ≠ 0 ∧ rev ≠ 0 ∧ 0 < rev then some (ev / rev) else none
    | _, _ => none
  | .evEbitda =>
    match pyOr m.enterpriseValue m.transactionValue, pyOr m.ebitda m.ltmEbitda with
    | some ev, some e => if ev ≠ 0 ∧ e ≠ 0 ∧ 0 < e then some (ev / e) else none
    | _, _ => none
  | .evGrossProfit =>
    match pyOr m.enterpriseValue m.transactionValue, m.grossProfit with
    | some ev, some gp => if ev ≠ 0 ∧ gp ≠ 0 ∧ 0 < gp then some (ev / gp) else none
    | _, _ => none

/-- Embedding of `GTMValuation._calculate_multiples` over the whole transaction list. -/
def txnCalculateMultiples (txns : List TxnMetrics) (mt : GTMMultipleType) : List ℚ :=
  txns.filterMap (fun t => txnMultiple t mt)

/-- Embedding of `GTMValuation._get_subject_metric`. -/
def gtmSubjectMetric (s : SubjectMetrics) : GTMMultipleType → Option ℚ
  | .evRevenue => s.revenue
  | .evEbitda => s.ebitda
  | .evGrossProfit => s.grossProfit

/-- One entry of `valuations_by_multiple` in the GTM result. -/
structure GTMEntry where
  transactionMultiples : List ℚ
  medianMultiple : ℚ
  meanMultiple : ℚ
  subjectMetric : ℚ
  indicatedValueMedian : ℚ
  indicatedValueMean : ℚ
deriving DecidableEq

/-- A value returned (not raised) by `calculate_gtm`. -/
inductive GTMResult where
  | err (msg : String)
  | ok (concludedValue : ℚ) (valuationsByMultiple : List (GTMMultipleType × GTMEntry))
deriving DecidableEq

/-- The per-multiple loop of `calculate_gtm` (lines 45-72): unlike GPCM,
an empty multiple list is skipped before any statistics run, and a
subject metric that is `None` or zero is skipped; no liquidity discount. -/
def gtmEntries (subject : SubjectMetrics) :
    List (GTMMultipleType × List ℚ) → Except String (List (GTMMultipleType × GTMEntry))
  | [] => .ok []
  | (mt, mults) :: rest =>
    if mults = [] then gtmEntries subject rest
    else
      match median mults with
      | .error e => .error e
      | .ok medianMultiple =>
        let meanMultiple := mean mults
        match gtmSubjectMetric subject mt with
        | none => gtmEntries subject rest
        | some sm =>
          if sm = 0 then gtmEntries subject rest
          else
            let entry : GTMEntry :=
              { transactionMultiples := mults,
                medianMultiple := medianMultiple,
                meanMultiple := meanMultiple,
                subjectMetric := sm,
                indicatedValueMedian := sm * medianMultiple,
                indicatedValueMean := sm * meanMultiple }
            match gtmEntries subject rest with
            | .error e => .error e
            | .ok entries => .ok ((mt, entry) :: entries)

/-- Embedding of `GTMValuation.calculate_gtm`. -/
def calculate_gtm (subject : SubjectMetrics) (txns : List TxnMetrics)
    (multiplesToUse : List GTMMultipleType) : Except String GTMResult :=
  if txns = [] then .ok (.err "No comparable transactions provided")
  else
    let txnMultiplesList := multiplesToUse.map (fun mt => (mt, txnCalculateMultiples txns mt))
    match gtmEntries subject txnMultiplesList with
    | .error e => .error e
    | .ok entries =>
      let allIndicatedValues := entries.map (fun e => e.2.indicatedValueMedian)
      let concludedValue := if allIndicatedValues ≠ [] then mean allIndicatedValues else 0
      .ok (.ok concludedValue entries)

/-! ## Normalizer reconciliation (`app/backend/normalization/normalizer.py`) -/

/-- One entry of the `grouped` dictionary: a canonical code and its
per-period exact-decimal values (every period label maps to a value;
grouping initialises each period to zero before accumulating). -/
structure GroupedItem where
  code : String
  values : String → ℚ

/-- The `grouped` dictionary, as its ordered item list. -/
abbrev Grouped := List GroupedItem

/-- Embedding of `FinancialNormalizer._get_value`: the values of a code, defaulting to
zero for every period when the code is not grouped. -/
def getValue (grouped : Grouped) (code : String) (period : String) : ℚ :=
  match grouped.find? (fun it => it.code == code) with
  | some it => it.values period
  | none => 0

/-- One discrepancy record of `_reconcile_income_statement`. -/
structure ISIssue where
  period : String
  rule : String
  description : String
  expected : ℚ
  actual : ℚ
  difference : ℚ
deriving DecidableEq

/-- Embedding of `FinancialNormalizer._reconcile_income_statement`
(lines 230-251): a period is reported only when the directly-grouped
`GP_001` value is nonzero and differs from `revenue - cogs` by more than
the 0.01 tolerance. -/
def reconcileIncomeStatement (grouped : Grouped) (periods : List String) : List ISIssue :=
  periods.filterMap (fun p =>
    let revenue := getValue grouped "REV_001" p
    let cogs := getValue grouped "COGS_001" p
    let gp := getValue grouped "GP_001" p
    let calculatedGp := revenue - cogs
    if gp ≠ 0 ∧ |calculatedGp - gp| > 1/100 then
      some { period := p,
             rule := "gross_profit_calculation",
             description := "Gross Profit mismatch in " ++ p,
             expected := calculatedGp,
             actual := gp,
             difference := calculatedGp - gp }
    else none)

/-- One discrepancy record of `_reconcile_balance_sheet`. -/
structure BSIssue where
  period : String
  rule : String
  description : String
  totalAssets : ℚ
  totalLiabilities : ℚ
  totalEquity : ℚ
  difference : ℚ
deriving DecidableEq

/-- Python `code.startswith(pre)`, as a character-level test (identical
to `String.startsWith`, but stated on the character lists so concrete
instances evaluate). -/
def codeStartsWith (s pre : String) : Bool :=
  pre.data.isPrefixOf s.data

/-- The per-period sum over every grouped code bearing a given code
prefix (`_reconcile_balance_sheet` lines 263-276). -/
def sumByCodeStart (grouped : Grouped) (pre : String) (period : String) : ℚ :=
  ((grouped.filter (fun it => codeStartsWith it.code pre)).map (fun it => it.values period)).sum

/-- Embedding of `FinancialNormalizer._reconcile_balance_sheet`
(lines 253-291): per period, assets summed over all `ASSET_`-coded items
must match `LIAB_` plus `EQUITY_` sums within the 0.01 tolerance. -/
def reconcileBalanceSheet (grouped : Grouped) (periods : List String) : List BSIssue :=
  periods.filterMap (fun p =>
    let totalAssets := sumByCodeStart grouped "ASSET_" p
    let totalLiab := sumByCodeStart grouped "LIAB_" p
    let totalEquity := sumByCodeStart grouped "EQUITY_" p
    let difference := totalAssets - (totalLiab + totalEquity)
    if |difference| > 1/100 then
      some { period := p,
             rule := "balance_sheet_equation",
             description := "Balance sheet out of balance in " ++ p,
             totalAssets := totalAssets,
             totalLiabilities := totalLiab,
             totalEquity := totalEquity,
             difference := difference }
    else none)

/-- Change the grouped value of one code in one period by `delta`,
leaving everything else untouched. -/
def perturb (grouped : Grouped) (code period : String) (delta : ℚ) : Grouped :=
  grouped.map (fun it =>
    if it.code = code then
      { it with values := fun p => if p = period then it.values p + delta else it.values p }
    else it)

/-! ## Valuation conductor -/

/-- The three valuation methods combined by the conductor. -/
inductive Method where
  | dcf
  | gpcm
  | gtm
deriving DecidableEq

/-- The default method weights declared in
`app/backend/schemas/valuation.py` (lines 61-64). -/
def defaultMethodWeights : Method → ℚ
  | .dcf => 1/2
  | .gpcm => 3/10
  | .gtm => 1/5

/-- Modelled from the spec: the executable conductor that combines
per-method values into a concluded value is not part of `src/` (the
repository only declares the default weights in
`app/backend/schemas/valuation.py` and writes a fixed-weight workbook
formula); following §4.7, `concluded_value = Σ weight_i · value_i` over
the methods that actually produced a value, with no renormalization of
the weights when a method is missing or failed. -/
def concludedValueOfMethods (weights : Method → ℚ) (results : Method → Option ℚ) : ℚ :=
  ([Method.dcf, Method.gpcm, Method.gtm].map (fun m =>
    match results m with
    | some v => weights m * v
    | none => 0)).sum

/-! ## Theorems -/

/-- C7: for every WACC input set, equity weight 1 with debt weight 0
makes the returned `wacc` exactly the returned cost of equity, and
equity weight 0 with debt weight 1 makes it exactly the returned
after-tax cost of debt. -/
theorem C7_wacc_degenerate_weights (inputs : WACCInputs) :
    (inputs.equityWeight = 1 → inputs.debtWeight = 0 →
      (calculate_wacc inputs).wacc = (calculate_wacc inputs).costOfEquity)
    ∧ (inputs.equityWeight = 0 → inputs.debtWeight = 1 →
      (calculate_wacc inputs).wacc = (calculate_wacc inputs).afterTaxCostOfDebt) := by
  constructor <;> intro h1 h2 <;> simp [calculate_wacc, h1, h2]

/-- Witness for C7 at the spec's §8 scenario inputs
(rf 0.045, erp 0.06, beta 1.2, size 0.02, co-specific 0.01, kd 0.06,
tax 0.25), specialised to each degenerate weight pair. -/
theorem C7_wacc_degenerate_weights_witness :
    (calculate_wacc ⟨9/200, 3/50, 6/5, 1/50, 1/100, 3/50, 1/4, 0, 1⟩).wacc
      = (calculate_wacc ⟨9/200, 3/50, 6/5, 1/50, 1/100, 3/50, 1/4, 0, 1⟩).costOfEquity
    ∧ (calculate_wacc ⟨9/200, 3/50, 6/5, 1/50, 1/100, 3/50, 1/4, 1, 0⟩).wacc
      = (calculate_wacc ⟨9/200, 3/50, 6/5, 1/50, 1/100, 3/50, 1/4, 1, 0⟩).afterTaxCostOfDebt :=
  ⟨(C7_wacc_degenerate_weights _).1 rfl rfl,
   (C7_wacc_degenerate_weights _).2 rfl rfl⟩

/-- C9: the conductor's concluded value is the sum of `weight_i * value_i`
over the methods that produced a value, with the default weights
dcf 1/2, gpcm 3/10, gtm 1/5, and a missing method leaves the remaining
weights unchanged (no renormalization).  The conductor itself is
modelled from the spec, since only its weight declaration is in `src/`. -/
theorem C9_conductor_weighted_sum (rd rg rt : Option ℚ) :
    (concludedValueOfMethods defaultMethodWeights
        (fun m => match m with | .dcf => rd | .gpcm => rg | .gtm => rt)
      = rd.elim 0 (fun v => (1/2) * v) + rg.elim 0 (fun v => (3/10) * v)
        + rt.elim 0 (fun v => (1/5) * v))
    ∧ (∀ d g : ℚ, concludedValueOfMethods defaultMethodWeights
        (fun m => match m with | .dcf => some d | .gpcm => some g | .gtm => none)
      = (1/2) * d + (3/10) * g) := by
  constructor
  · cases rd <;> cases rg <;> cases rt <;>
      simp [concludedValueOfMethods, defaultMethodWeights, add_assoc]
  · intro d g
    simp [concludedValueOfMethods, defaultMethodWeights]

/-- C2 counterexample: on an empty forecast list (resp. empty comparable
lists) the three engines return normally (`Except.ok`) with an
`{'error': ...}` payload inside the result; nothing is raised, contrary
to the claim that an `InputError` is raised and propagated. -/
theorem C2_counterexample :
    calculate_dcf (fun _ _ => 1) 0 0 [] (1/10) (some (1/40)) none none true
        = Except.ok (DCFResult.err "No forecast data")
    ∧ calculate_gpcm {} [] [MultipleType.evRevenue] (1/4)
        = Except.ok (GPCMResult.err "No comparable companies provided")
    ∧ calculate_gtm {} [] [GTMMultipleType.evRevenue]
        = Except.ok (GTMResult.err "No comparable transactions provided") :=
  ⟨rfl, rfl, rfl⟩

/-- C2 amended: for every call with an empty forecast free-cash-flow list,
`calculate_dcf` returns normally with the `{'error': 'No forecast data'}`
payload, and for every call with an empty comparables list,
`calculate_gpcm` / `calculate_gtm` return normally with their
`{'error': ...}` payloads; no exception is raised. -/
theorem C2_amended_error_payloads (fpow : ℚ → ℚ → ℚ) (cash debt wacc : ℚ)
    (tg em te : Option ℚ) (mid : Bool) (subj : SubjectMetrics)
    (mults : List MultipleType) (ld : ℚ) (gmults : List GTMMultipleType) :
    calculate_dcf fpow cash debt [] wacc tg em te mid
        = Except.ok (DCFResult.err "No forecast data")
    ∧ calculate_gpcm subj [] mults ld
        = Except.ok (GPCMResult.err "No comparable companies provided")
    ∧ calculate_gtm subj [] gmults
        = Except.ok (GTMResult.err "No comparable transactions provided") :=
  ⟨rfl, rfl, rfl⟩

/-- C10: whenever the directly-grouped `GP_001` value of a period is
exactly zero, income-statement reconciliation reports no discrepancy for
that period, whatever `revenue - cogs` is. -/
theorem C10_gp_zero_suppresses_reconciliation (grouped : Grouped)
    (periods : List String) (p : String)
    (hgp : getValue grouped "GP_001" p = 0) :
    (reconcileIncomeStatement grouped periods).filter (fun iss => iss.period == p) = [] := by
  rw [List.filter_eq_nil_iff]
  intro iss hiss
  rw [reconcileIncomeStatement, List.mem_filterMap] at hiss
  obtain ⟨q, _, hqe⟩ := hiss
  dsimp only at hqe
  split at hqe
  · rename_i hcond
    cases hqe
    simp only [beq_iff_eq]
    intro hqp
    subst hqp
    exact hcond.1 hgp
  · cases hqe

/-- Witness for C10: revenue 100 and COGS 40 in period 2021 with no
grouped `GP_001` value (so it reads as zero): `revenue - cogs = 60` is
far beyond the 0.01 tolerance, yet no discrepancy is reported for 2021. -/
theorem C10_gp_zero_suppresses_reconciliation_witness :
    (reconcileIncomeStatement
        [⟨"REV_001", fun q => if q = "2021" then 100 else 0⟩,
         ⟨"COGS_001", fun q => if q = "2021" then 40 else 0⟩]
        ["2021"]).filter (fun iss => iss.period == "2021") = [] :=
  C10_gp_zero_suppresses_reconciliation _ _ _ (by decide)

/-- With a nonempty forecast, Gordon Growth configuration and a nonzero
(post-clamp) denominator, `calculate_dcf` succeeds and its terminal value
is the Gordon formula evaluated at the (possibly clamped) growth rate. -/
theorem calculate_dcf_gordon_terminal (fpow : ℚ → ℚ → ℚ) (cash debt : ℚ)
    (fcfs : List ℚ) (wacc g : ℚ) (te : Option ℚ) (mid : Bool) (hne : fcfs ≠ [])
    (hden : wacc - (if wacc ≤ g then wacc * (4/5) else g) ≠ 0) :
    ∃ r, calculate_dcf fpow cash debt fcfs wacc (some g) none te mid
        = Except.ok (DCFResult.ok r)
      ∧ r.terminalValue = fcfs.getLast hne * (1 + (if wacc ≤ g then wacc * (4/5) else g))
          / (wacc - (if wacc ≤ g then wacc * (4/5) else g)) := by
  unfold calculate_dcf
  rw [dif_neg hne]
  dsimp only
  unfold gordonTerminalValue
  dsimp only
  rw [if_neg hden]
  exact ⟨_, rfl, rfl⟩

/-- With a nonempty forecast, Gordon Growth configuration and a zero
(post-clamp) denominator, `calculate_dcf` raises the `Decimal` division
error. -/
theorem calculate_dcf_gordon_divzero (fpow : ℚ → ℚ → ℚ) (cash debt : ℚ)
    (fcfs : List ℚ) (wacc g : ℚ) (te : Option ℚ) (mid : Bool) (hne : fcfs ≠ [])
    (hden : wacc - (if wacc ≤ g then wacc * (4/5) else g) = 0) :
    calculate_dcf fpow cash debt fcfs wacc (some g) none te mid
      = Except.error "DivisionByZero" := by
  unfold calculate_dcf
  rw [dif_neg hne]
  dsimp only
  unfold gordonTerminalValue
  dsimp only
  rw [if_pos hden]

/-- C1: for every Gordon Growth DCF call with a nonempty forecast:
when `wacc <= g` the terminal value produced uses the clamped rate
`0.8 * wacc` (and the call succeeds whenever `wacc` is nonzero), and
when `g < wacc` the call succeeds with the original-rate formula. -/
theorem C1_terminal_growth_clamp (fpow : ℚ → ℚ → ℚ) (cash debt : ℚ)
    (fcfs : List ℚ) (wacc g : ℚ) (te : Option ℚ) (mid : Bool) (hne : fcfs ≠ []) :
    (wacc ≤ g → ∀ r, calculate_dcf fpow cash debt fcfs wacc (some g) none te mid
        = Except.ok (DCFResult.ok r) →
      r.terminalValue = fcfs.getLast hne * (1 + (4/5) * wacc) / (wacc - (4/5) * wacc))
    ∧ (wacc ≤ g → wacc ≠ 0 →
      ∃ r, calculate_dcf fpow cash debt fcfs wacc (some g) none te mid
          = Except.ok (DCFResult.ok r)
        ∧ r.terminalValue = fcfs.getLast hne * (1 + (4/5) * wacc) / (wacc - (4/5) * wacc))
    ∧ (g < wacc →
      ∃ r, calculate_dcf fpow cash debt fcfs wacc (some g) none te mid
          = Except.ok (DCFResult.ok r)
        ∧ r.terminalValue = fcfs.getLast hne * (1 + g) / (wacc - g)) := by
  refine ⟨?_, ?_, ?_⟩
  · intro hle r hr
    by_cases hd : wacc - (if wacc ≤ g then wacc * (4/5) else g) = 0
    · rw [calculate_dcf_gordon_divzero fpow cash debt fcfs wacc g te mid hne hd] at hr
      cases hr
    · obtain ⟨r0, he, htv⟩ :=
        calculate_dcf_gordon_terminal fpow cash debt fcfs wacc g te mid hne hd
      rw [he] at hr
      cases hr
      rw [if_pos hle] at htv
      rw [htv, mul_comm wacc (4/5)]
  · intro hle hw0
    have hd : wacc - (if wacc ≤ g then wacc * (4/5) else g) ≠ 0 := by
      rw [if_pos hle]
      intro h
      apply hw0
      linarith
    obtain ⟨r0, he, htv⟩ :=
      calculate_dcf_gordon_terminal fpow cash debt fcfs wacc g te mid hne hd
    rw [if_pos hle] at htv
    exact ⟨r0, he, by rw [htv, mul_comm wacc (4/5)]⟩
  · intro hlt
    have hnle : ¬ wacc ≤ g := not_le.mpr hlt
    have hd : wacc - (if wacc ≤ g then wacc * (4/5) else g) ≠ 0 := by
      rw [if_neg hnle]
      exact sub_ne_zero.mpr (ne_of_gt hlt)
    obtain ⟨r0, he, htv⟩ :=
      calculate_dcf_gordon_terminal fpow cash debt fcfs wacc g te mid hne hd
    rw [if_neg hnle] at htv
    exact ⟨r0, he, htv⟩

/-- Witness for C1: with forecast `[100]`, the clamped branch at
`wacc = 1/10 <= g = 1/5` yields terminal value
`100 * (1 + 0.08) / (0.02) = 5400` by the clamped formula, and the
unclamped branch at `g = 1/10 < wacc = 1/2` uses the original rate. -/
theorem C1_terminal_growth_clamp_witness :
    (∃ r, calculate_dcf (fun _ _ => 1) 0 0 [100] (1/10) (some (1/5)) none none true
        = Except.ok (DCFResult.ok r)
      ∧ r.terminalValue = 100 * (1 + (4/5) * (1/10)) / (1/10 - (4/5) * (1/10)))
    ∧ (∃ r, calculate_dcf (fun _ _ => 1) 0 0 [100] (1/2) (some (1/10)) none none true
        = Except.ok (DCFResult.ok r)
      ∧ r.terminalValue = 100 * (1 + 1/10) / (1/2 - 1/10)) := by
  constructor
  · exact (C1_terminal_growth_clamp (fun _ _ => 1) 0 0 [100] (1/10) (1/5) none true
      (by decide)).2.1 (by norm_num) (by norm_num)
  · exact (C1_terminal_growth_clamp (fun _ _ => 1) 0 0 [100] (1/2) (1/10) none true
      (by decide)).2.2 (by norm_num)

/-- Every entry the GPCM per-multiple loop produces carries adjusted
values equal to its indicated values times `1 - liquidity_discount`. -/
theorem gpcmEntries_adjusted (subject : SubjectMetrics) (ld : ℚ)
    (l : List (MultipleType × List ℚ)) :
    ∀ entries : List (MultipleType × GPCMEntry),
      gpcmEntries subject ld l = Except.ok entries →
      ∀ e ∈ entries,
        e.2.adjustedValueMedian = e.2.indicatedValueMedian * (1 - ld)
        ∧ e.2.adjustedValueMean = e.2.indicatedValueMean * (1 - ld) := by
  induction l with
  | nil =>
    intro entries h e he
    rw [gpcmEntries] at h
    cases h
    cases he
  | cons hd tl ih =>
    obtain ⟨mt, mults⟩ := hd
    intro entries h e he
    rw [gpcmEntries] at h
    split at h
    · cases h
    · split at h
      · exact ih entries h e he
      · split at h
        · cases h
        · rename_i entries0 hrec
          cases h
          rcases List.mem_cons.mp he with he | he
          · cases he
            exact ⟨rfl, rfl⟩
          · exact ih entries0 hrec e he

/-- C8: in every GPCM result, each computed multiple-type entry has
`adjusted_value = indicated_value * (1 - liquidity_discount)` for both
the median and the mean variants; in particular a zero discount leaves
the indicated values unchanged and a 25% discount scales them by 3/4. -/
theorem C8_gpcm_liquidity_discount (subj : SubjectMetrics) (comps : List CompMetrics)
    (mults : List MultipleType) (ld cv ldr : ℚ)
    (entries : List (MultipleType × GPCMEntry))
    (h : calculate_gpcm subj comps mults ld = Except.ok (GPCMResult.ok cv entries ldr)) :
    ∀ e ∈ entries,
      (e.2.adjustedValueMedian = e.2.indicatedValueMedian * (1 - ld)
        ∧ e.2.adjustedValueMean = e.2.indicatedValueMean * (1 - ld))
      ∧ (ld = 0 → e.2.adjustedValueMedian = e.2.indicatedValueMedian
          ∧ e.2.adjustedValueMean = e.2.indicatedValueMean)
      ∧ (ld = 1/4 → e.2.adjustedValueMedian = (3/4) * e.2.indicatedValueMedian
          ∧ e.2.adjustedValueMean = (3/4) * e.2.indicatedValueMean) := by
  have hE : gpcmEntries subj ld (mults.map (fun mt => (mt, calculateMultiples comps mt)))
      = Except.ok entries := by
    unfold calculate_gpcm at h
    split at h
    · simp at h
    · dsimp only at h
      split at h
      · simp at h
      · rename_i es hrec
        simp only [Except.ok.injEq, GPCMResult.ok.injEq] at h
        rw [← h.2.1]
        exact hrec
  intro e he
  obtain ⟨h1, h2⟩ := gpcmEntries_adjusted subj ld _ entries hE e he
  refine ⟨⟨h1, h2⟩, fun hld => ?_, fun hld => ?_⟩
  · subst hld
    constructor <;> simp [h1, h2]
  · subst hld
    refine ⟨?_, ?_⟩
    · rw [h1]; ring
    · rw [h2]; ring

/-- Witness for C8: one comparable with enterprise value 50,000,000 and
revenue 10,000,000 gives the EV/Revenue multiple 5; the subject revenue
5,000,000 gives indicated value 25,000,000, and the 25% liquidity
discount yields adjusted value 18,750,000 = 3/4 of it. -/
theorem C8_gpcm_liquidity_discount_witness :
    (18750000 : ℚ) = 25000000 * (1 - 1/4) := by
  exact (C8_gpcm_liquidity_discount
    { revenue := some 5000000 }
    [{ enterpriseValue := some 50000000, revenue := some 10000000 }]
    [MultipleType.evRevenue] (1/4) 18750000 (1/4)
    [(MultipleType.evRevenue,
      { comparableMultiples := [5], medianMultiple := 5, meanMultiple := 5,
        subjectMetric := 5000000, indicatedValueMedian := 25000000,
        indicatedValueMean := 25000000, adjustedValueMedian := 18750000,
        adjustedValueMean := 18750000, liquidityDiscount := 1/4 })]
    (by with_unfolding_all rfl)
    (MultipleType.evRevenue,
      { comparableMultiples := [5], medianMultiple := 5, meanMultiple := 5,
        subjectMetric := 5000000, indicatedValueMedian := 25000000,
        indicatedValueMean := 25000000, adjustedValueMedian := 18750000,
        adjustedValueMean := 18750000, liquidityDiscount := 1/4 })
    (List.mem_singleton.mpr rfl)).1.1

/-- C3 (evidence of the code bug): with one comparable bearing no usable
metrics, the requested `EV/Revenue` multiple has no valid ratio, and
`calculate_gpcm` raises `statistics.StatisticsError` from
`median([])` instead of returning normally with the type omitted
(`gtm.py` guards this case; `gpcm.py` does not). -/
theorem C3_gpcm_raises_on_no_valid_ratio :
    calculate_gpcm {} [{}] [MultipleType.evRevenue] (1/4)
      = Except.error "StatisticsError" := by
  with_unfolding_all rfl

/-- The function `perturb` is the identity when the perturbed code is not grouped. -/
theorem perturb_of_not_mem (c p0 : String) (delta : ℚ) :
    ∀ grouped : Grouped, c ∉ grouped.map (fun it => it.code) →
      perturb grouped c p0 delta = grouped := by
  intro grouped
  induction grouped with
  | nil => intro _; rfl
  | cons it gs ih =>
    intro h
    simp only [List.map_cons, List.mem_cons, not_or] at h
    unfold perturb
    rw [List.map_cons]
    rw [if_neg (fun he => h.1 he.symm)]
    have := ih h.2
    unfold perturb at this
    rw [this]

/-- The function `perturb` distributes over cons. -/
theorem perturb_cons (it : GroupedItem) (gs : Grouped) (c p0 : String) (delta : ℚ) :
    perturb (it :: gs) c p0 delta
      = (if it.code = c then
          { it with values := fun p => if p = p0 then it.values p + delta else it.values p }
        else it) :: perturb gs c p0 delta := rfl

/-- Unfolding `sumByCodeStart` over cons. -/
theorem sumByCodeStart_cons (it : GroupedItem) (gs : Grouped) (pre p : String) :
    sumByCodeStart (it :: gs) pre p
      = (if codeStartsWith it.code pre then it.values p else 0) + sumByCodeStart gs pre p := by
  by_cases h : codeStartsWith it.code pre
  · simp [sumByCodeStart, List.filter_cons, h]
  · simp [sumByCodeStart, List.filter_cons, h]

/-- Perturbing one code in one period leaves every other period's
prefix sums unchanged. -/
theorem sumByCodeStart_perturb_ne (c p0 : String) (delta : ℚ) (pre p : String)
    (hp : p ≠ p0) :
    ∀ grouped : Grouped,
      sumByCodeStart (perturb grouped c p0 delta) pre p = sumByCodeStart grouped pre p := by
  intro grouped
  induction grouped with
  | nil => rfl
  | cons it gs ih =>
    rw [perturb_cons, sumByCodeStart_cons, sumByCodeStart_cons, ih]
    by_cases hcode : it.code = c <;> by_cases hsw : codeStartsWith it.code pre <;>
      simp [hcode, hsw, hp]

/-- Perturbing one grouped code (codes are distinct, as dict grouping
guarantees) changes the matching prefix sum of the perturbed period by
exactly `delta`, and the non-matching prefix sums not at all. -/
theorem sumByCodeStart_perturb_self (c p0 : String) (delta : ℚ) (pre : String) :
    ∀ grouped : Grouped, (grouped.map (fun it => it.code)).Nodup →
      sumByCodeStart (perturb grouped c p0 delta) pre p0
        = sumByCodeStart grouped pre p0
          + (if c ∈ grouped.map (fun it => it.code) ∧ codeStartsWith c pre then delta else 0) := by
  intro grouped
  induction grouped with
  | nil => intro _; simp [perturb, sumByCodeStart]
  | cons it gs ih =>
    intro hnd
    rw [List.map_cons, List.nodup_cons] at hnd
    rw [perturb_cons, sumByCodeStart_cons, sumByCodeStart_cons]
    by_cases hcode : it.code = c
    · have hcgs : c ∉ gs.map (fun x => x.code) := hcode ▸ hnd.1
      have hc2 : c = it.code := hcode.symm
      rw [if_pos hcode, perturb_of_not_mem c p0 delta gs hcgs]
      by_cases hsw : codeStartsWith it.code pre
      · have hcsw : codeStartsWith c pre := hcode ▸ hsw
        dsimp only
        simp [hsw, hcsw, hc2, List.mem_cons]
        ring
      · have hcsw : ¬ codeStartsWith c pre = true := hcode ▸ hsw
        dsimp only
        simp [hsw, hcsw]
    · rw [if_neg hcode, ih hnd.2]
      have hc2 : ¬ c = it.code := fun he => hcode he.symm
      by_cases hcsw : codeStartsWith c pre
      · simp [List.mem_cons, hc2, hcsw, add_assoc]
      · simp [hcsw]

/-- A `filterMap` over distinct elements that fires on exactly one
element returns exactly that one result. -/
theorem filterMap_eq_singleton {α β : Type} (f : α → Option β) (a : α) (b : β) :
    ∀ l : List α, l.Nodup → a ∈ l → f a = some b →
      (∀ x ∈ l, x ≠ a → f x = none) → l.filterMap f = [b] := by
  intro l
  induction l with
  | nil => intro _ ha; cases ha
  | cons q qs ih =>
    intro hnd ha hfa hother
    rw [List.nodup_cons] at hnd
    rw [List.filterMap_cons]
    rcases List.mem_cons.mp ha with rfl | ha2
    · rw [hfa]
      have hnil : qs.filterMap f = [] := by
        rw [List.filterMap_eq_nil_iff]
        intro x hx
        exact hother x (List.mem_cons_of_mem _ hx)
          (fun hxa => hnd.1 (hxa ▸ hx))
      rw [hnil]
    · have hqa : q ≠ a := fun hqa => hnd.1 (hqa ▸ ha2)
      have hq : f q = none := hother q (List.mem_cons_self q qs) hqa
      rw [hq]
      exact ih hnd.2 ha2 hfa (fun x hx hxa => hother x (List.mem_cons_of_mem _ hx) hxa)

/-- Exact balance in every period makes the balance-sheet discrepancy
list empty. -/
theorem reconcileBalanceSheet_eq_nil (grouped : Grouped) (periods : List String)
    (hbal : ∀ p ∈ periods, sumByCodeStart grouped "ASSET_" p
      = sumByCodeStart grouped "LIAB_" p + sumByCodeStart grouped "EQUITY_" p) :
    reconcileBalanceSheet grouped periods = [] := by
  rw [reconcileBalanceSheet, List.filterMap_eq_nil_iff]
  intro p hp
  have hz : sumByCodeStart grouped "ASSET_" p
      - (sumByCodeStart grouped "LIAB_" p + sumByCodeStart grouped "EQUITY_" p) = 0 := by
    rw [hbal p hp]; ring
  dsimp only
  rw [hz]
  norm_num

/-- C5 counterexample: the grouped code `XYZ_001` carries none of the
`ASSET_` / `LIAB_` / `EQUITY_` prefixes, so the sheet balances exactly
(all prefix sums are zero), yet changing that grouped value by 1
(far above the 0.01 tolerance) in period 2021 produces zero discrepancy
records instead of the claimed exactly one. -/
theorem C5_balance_reconciliation_counterexample :
    (∀ p ∈ ["2021"], sumByCodeStart [⟨"XYZ_001", fun _ => (100 : ℚ)⟩] "ASSET_" p
        = sumByCodeStart [⟨"XYZ_001", fun _ => (100 : ℚ)⟩] "LIAB_" p
          + sumByCodeStart [⟨"XYZ_001", fun _ => (100 : ℚ)⟩] "EQUITY_" p)
    ∧ ((1 : ℚ) > 1/100)
    ∧ reconcileBalanceSheet
        (perturb [⟨"XYZ_001", fun _ => (100 : ℚ)⟩] "XYZ_001" "2021" 1) ["2021"] = [] :=
  ⟨by
    intro p hp
    rw [List.mem_singleton] at hp
    subst hp
    with_unfolding_all rfl,
   by norm_num,
   by with_unfolding_all rfl⟩

/-- C5 amended: when every period balances exactly, the discrepancy list
is empty; and changing one grouped value — of a code that bears exactly
one of the `ASSET_` / `LIAB_` / `EQUITY_` prefixes (codes and period
labels distinct, as dict grouping produces) — by more than 0.01 in
exactly one period yields exactly one discrepancy, for that period. -/
theorem C5_balance_reconciliation_amended (grouped : Grouped) (periods : List String)
    (c p0 : String) (delta : ℚ)
    (hbal : ∀ p ∈ periods, sumByCodeStart grouped "ASSET_" p
        = sumByCodeStart grouped "LIAB_" p + sumByCodeStart grouped "EQUITY_" p)
    (hnodup : (grouped.map (fun it => it.code)).Nodup)
    (hpnodup : periods.Nodup)
    (hc : c ∈ grouped.map (fun it => it.code))
    (hpre : (codeStartsWith c "ASSET_" ∧ ¬ codeStartsWith c "LIAB_" ∧ ¬ codeStartsWith c "EQUITY_")
      ∨ (¬ codeStartsWith c "ASSET_" ∧ codeStartsWith c "LIAB_" ∧ ¬ codeStartsWith c "EQUITY_")
      ∨ (¬ codeStartsWith c "ASSET_" ∧ ¬ codeStartsWith c "LIAB_" ∧ codeStartsWith c "EQUITY_"))
    (hp0 : p0 ∈ periods)
    (hdelta : |delta| > 1/100) :
    reconcileBalanceSheet grouped periods = []
    ∧ ∃ iss, reconcileBalanceSheet (perturb grouped c p0 delta) periods = [iss]
        ∧ iss.period = p0 := by
  refine ⟨reconcileBalanceSheet_eq_nil grouped periods hbal, ?_⟩
  have hAp := sumByCodeStart_perturb_self c p0 delta "ASSET_" grouped hnodup
  have hLp := sumByCodeStart_perturb_self c p0 delta "LIAB_" grouped hnodup
  have hEp := sumByCodeStart_perturb_self c p0 delta "EQUITY_" grouped hnodup
  have hbal0 := hbal p0 hp0
  have hdiff : sumByCodeStart (perturb grouped c p0 delta) "ASSET_" p0
      - (sumByCodeStart (perturb grouped c p0 delta) "LIAB_" p0
        + sumByCodeStart (perturb grouped c p0 delta) "EQUITY_" p0)
      = (if codeStartsWith c "ASSET_" then delta else -delta) := by
    rcases hpre with ⟨ha, hl, he⟩ | ⟨ha, hl, he⟩ | ⟨ha, hl, he⟩ <;>
      rw [hAp, hLp, hEp] <;> simp [ha, hl, he, hc] <;> linarith [hbal0]
  have habs : |sumByCodeStart (perturb grouped c p0 delta) "ASSET_" p0
      - (sumByCodeStart (perturb grouped c p0 delta) "LIAB_" p0
        + sumByCodeStart (perturb grouped c p0 delta) "EQUITY_" p0)| > 1/100 := by
    rw [hdiff]
    split_ifs <;> simpa [abs_neg] using hdelta
  refine ⟨{ period := p0, rule := "balance_sheet_equation",
            description := "Balance sheet out of balance in " ++ p0,
            totalAssets := sumByCodeStart (perturb grouped c p0 delta) "ASSET_" p0,
            totalLiabilities := sumByCodeStart (perturb grouped c p0 delta) "LIAB_" p0,
            totalEquity := sumByCodeStart (perturb grouped c p0 delta) "EQUITY_" p0,
            difference := sumByCodeStart (perturb grouped c p0 delta) "ASSET_" p0
              - (sumByCodeStart (perturb grouped c p0 delta) "LIAB_" p0
                + sumByCodeStart (perturb grouped c p0 delta) "EQUITY_" p0) }, ?_, rfl⟩
  rw [reconcileBalanceSheet]
  apply filterMap_eq_singleton _ p0 _ periods hpnodup hp0
  · dsimp only
    rw [if_pos habs]
  · intro x hx hxne
    dsimp only
    rw [sumByCodeStart_perturb_ne c p0 delta "ASSET_" x hxne grouped,
        sumByCodeStart_perturb_ne c p0 delta "LIAB_" x hxne grouped,
        sumByCodeStart_perturb_ne c p0 delta "EQUITY_" x hxne grouped]
    have hz : sumByCodeStart grouped "ASSET_" x
        - (sumByCodeStart grouped "LIAB_" x + sumByCodeStart grouped "EQUITY_" x) = 0 := by
      rw [hbal x hx]; ring
    rw [hz]
    norm_num

/-- Witness for C5 amended: assets 100, liabilities 60, equity 40 in the
single period 2021 balance exactly; adding 1 to `ASSET_001` in 2021
yields exactly one discrepancy, for 2021. -/
theorem C5_balance_reconciliation_amended_witness :
    reconcileBalanceSheet
        [⟨"ASSET_001", fun p => if p = "2021" then (100 : ℚ) else 0⟩,
         ⟨"LIAB_001", fun p => if p = "2021" then (60 : ℚ) else 0⟩,
         ⟨"EQUITY_001", fun p => if p = "2021" then (40 : ℚ) else 0⟩] ["2021"] = []
    ∧ ∃ iss, reconcileBalanceSheet
        (perturb
          [⟨"ASSET_001", fun p => if p = "2021" then (100 : ℚ) else 0⟩,
           ⟨"LIAB_001", fun p => if p = "2021" then (60 : ℚ) else 0⟩,
           ⟨"EQUITY_001", fun p => if p = "2021" then (40 : ℚ) else 0⟩]
          "ASSET_001" "2021" 1) ["2021"] = [iss]
        ∧ iss.period = "2021" :=
  C5_balance_reconciliation_amended
    [⟨"ASSET_001", fun p => if p = "2021" then (100 : ℚ) else 0⟩,
     ⟨"LIAB_001", fun p => if p = "2021" then (60 : ℚ) else 0⟩,
     ⟨"EQUITY_001", fun p => if p = "2021" then (40 : ℚ) else 0⟩]
    ["2021"] "ASSET_001" "2021" 1
    (by
      intro p hp
      rw [List.mem_singleton] at hp
      subst hp
      with_unfolding_all rfl)
    (by decide) (by decide) (by decide) (by decide) (by decide) (by norm_num)

/-- When the body never raises, the loop returns every cell. -/
theorem mapE_ok_of_forall {α β : Type} (f : α → Except String β) (g : α → β)
    (hf : ∀ a, f a = .ok (g a)) :
    ∀ l : List α, mapE f l = .ok (l.map g) := by
  intro l
  induction l with
  | nil => rfl
  | cons a as ih => simp [mapE, hf a, ih]

/-- A Gordon Growth DCF call with `g < wacc` always returns normally. -/
theorem calculate_dcf_gordon_total (fpow : ℚ → ℚ → ℚ) (cash debt : ℚ)
    (fcfs : List ℚ) (wacc g : ℚ) (te : Option ℚ) (mid : Bool) (hgt : g < wacc) :
    ∃ v, calculate_dcf fpow cash debt fcfs wacc (some g) none te mid = Except.ok v := by
  by_cases hne : fcfs = []
  · subst hne
    exact ⟨.err "No forecast data", rfl⟩
  · have hnle : ¬ wacc ≤ g := not_le.mpr hgt
    have hd : wacc - (if wacc ≤ g then wacc * (4/5) else g) ≠ 0 := by
      rw [if_neg hnle]
      exact sub_ne_zero.mpr (ne_of_gt hgt)
    obtain ⟨r, he, -⟩ := calculate_dcf_gordon_terminal fpow cash debt fcfs wacc g te mid hne hd
    exact ⟨.ok r, he⟩

/-- The value a sensitivity cell carries: `None` for `wacc ≤ growth` or
when the inner call produced an error payload, else the equity value. -/
def sensCellValue (fpow : ℚ → ℚ → ℚ) (baseFcf : List ℚ) (cash totalDebt : ℚ)
    (wacc growth : ℚ) : Option ℚ :=
  if wacc ≤ growth then none
  else
    match calculate_dcf fpow cash totalDebt baseFcf wacc (some growth) none none true with
    | .ok (.ok r) => some r.equityValue
    | _ => none

/-- A sensitivity cell never raises. -/
theorem sensitivityCell_eq (fpow : ℚ → ℚ → ℚ) (baseFcf : List ℚ) (cash totalDebt : ℚ)
    (wacc growth : ℚ) :
    sensitivityCell fpow baseFcf cash totalDebt wacc growth
      = .ok (sensCellValue fpow baseFcf cash totalDebt wacc growth) := by
  unfold sensitivityCell sensCellValue
  by_cases hle : wacc ≤ growth
  · rw [if_pos hle, if_pos hle]
  · rw [if_neg hle, if_neg hle]
    obtain ⟨v, hv⟩ := calculate_dcf_gordon_total fpow cash totalDebt baseFcf wacc growth
      none true (not_le.mp hle)
    rw [hv]
    cases v <;> rfl

/-- The function `sensitivity_analysis` always returns the full rectangular table of
cell values. -/
theorem sensitivity_analysis_ok (fpow : ℚ → ℚ → ℚ) (baseFcf : List ℚ)
    (bw bg : ℚ) (waccRange growthRange : List ℚ) (cash totalDebt : ℚ) :
    sensitivity_analysis fpow baseFcf bw bg waccRange growthRange cash totalDebt
      = .ok { waccRange := waccRange, growthRange := growthRange,
              sensitivityTable := waccRange.map (fun w =>
                growthRange.map (fun g => sensCellValue fpow baseFcf cash totalDebt w g)),
              baseWacc := bw, baseGrowth := bg } := by
  unfold sensitivity_analysis
  rw [mapE_ok_of_forall
    (fun w => mapE (fun g => sensitivityCell fpow baseFcf cash totalDebt w g) growthRange)
    (fun w => growthRange.map (fun g => sensCellValue fpow baseFcf cash totalDebt w g))
    (fun w => mapE_ok_of_forall _ _
      (fun g => sensitivityCell_eq fpow baseFcf cash totalDebt w g) growthRange)
    waccRange]

/-- C6 counterexample: with an empty `base_fcf` the cell at
`wacc = 1/10 > growth = 1/20` is null (the inner call returns the
`{'error': ...}` payload and `result.get('equity_value')` is `None`),
contradicting the claim that every such cell holds a numeric equity
value. -/
theorem C6_sensitivity_grid_counterexample :
    sensitivity_analysis (fun _ _ => 1) [] 0 0 [1/10] [1/20] 0 0
      = Except.ok { waccRange := [1/10], growthRange := [1/20],
                    sensitivityTable := [[none]], baseWacc := 0, baseGrowth := 0 }
    ∧ ¬ ((1/10 : ℚ) ≤ 1/20) :=
  ⟨by with_unfolding_all rfl, by norm_num⟩

/-- C6 amended: `sensitivity_analysis` always returns a rectangular
`|wacc_range| × |growth_range|` table; every cell with `wacc ≤ growth`
is null; and provided the base forecast list is nonempty, every other
cell holds the numeric equity value `calculate_dcf` computes for that
pair (with an empty forecast those cells are null as well). -/
theorem C6_sensitivity_grid_amended (fpow : ℚ → ℚ → ℚ) (baseFcf : List ℚ)
    (bw bg : ℚ) (waccRange growthRange : List ℚ) (cash totalDebt : ℚ) :
    ∃ res, sensitivity_analysis fpow baseFcf bw bg waccRange growthRange cash totalDebt
        = Except.ok res
      ∧ res.sensitivityTable.length = waccRange.length
      ∧ (∀ row ∈ res.sensitivityTable, row.length = growthRange.length)
      ∧ (∀ (i j : ℕ) (w g : ℚ) (row : List (Option ℚ)) (cell : Option ℚ),
          waccRange.get? i = some w → growthRange.get? j = some g →
          res.sensitivityTable.get? i = some row → row.get? j = some cell →
          (w ≤ g → cell = none)
          ∧ (g < w → baseFcf ≠ [] →
              ∃ r, calculate_dcf fpow cash totalDebt baseFcf w (some g) none none true
                  = Except.ok (DCFResult.ok r) ∧ cell = some r.equityValue)) := by
  refine ⟨_, sensitivity_analysis_ok fpow baseFcf bw bg waccRange growthRange cash totalDebt,
    by simp, ?_, ?_⟩
  · intro row hrow
    obtain ⟨w, -, hw⟩ := List.mem_map.mp hrow
    rw [← hw]
    simp
  · intro i j w g row cell hwi hgj hrow hcell
    dsimp only at hrow
    rw [List.get?_map, hwi] at hrow
    cases hrow
    rw [List.get?_map, hgj] at hcell
    cases hcell
    constructor
    · intro hle
      simp [sensCellValue, hle]
    · intro hgt hne
      have hnle : ¬ w ≤ g := not_le.mpr hgt
      have hd : w - (if w ≤ g then w * (4/5) else g) ≠ 0 := by
        rw [if_neg hnle]
        exact sub_ne_zero.mpr (ne_of_gt hgt)
      obtain ⟨r, he, -⟩ :=
        calculate_dcf_gordon_terminal fpow cash totalDebt baseFcf w g none true hne hd
      refine ⟨r, he, ?_⟩
      unfold sensCellValue
      dsimp only
      rw [if_neg hnle, he]

/-- Witness for C6 amended: base forecast `[100]`, one wacc (1/10) and
one growth (1/20): the single cell holds the equity value of the inner
DCF call (2200 under the constant-1 discount model). -/
theorem C6_sensitivity_grid_amended_witness :
    ∃ res, sensitivity_analysis (fun _ _ => 1) [100] 0 0 [1/10] [1/20] 0 0
        = Except.ok res
      ∧ res.sensitivityTable.length = 1
      ∧ (∀ row ∈ res.sensitivityTable, row.length = 1)
      ∧ ∃ row cell, res.sensitivityTable.get? 0 = some row ∧ row.get? 0 = some cell
          ∧ ∃ r, calculate_dcf (fun _ _ => 1) 0 0 [100] (1/10) (some (1/20)) none none true
              = Except.ok (DCFResult.ok r) ∧ cell = some r.equityValue := by
  obtain ⟨res, h1, h2, h3, h4⟩ :=
    C6_sensitivity_grid_amended (fun _ _ => 1) [100] 0 0 [1/10] [1/20] 0 0
  have hcomp : sensitivity_analysis (fun _ _ => 1) [100] 0 0 [1/10] [1/20] 0 0
      = Except.ok { waccRange := [1/10], growthRange := [1/20],
                    sensitivityTable := [[some 2200]], baseWacc := 0, baseGrowth := 0 } := by
    with_unfolding_all rfl
  rw [hcomp] at h1
  have hres := (Except.ok.injEq _ _).mp h1.symm
  refine ⟨res, ?_, by simpa using h2, h3, [some 2200], some 2200, ?_, rfl, ?_⟩
  · rw [hres]
    exact hcomp
  · rw [hres]
    rfl
  · have := h4 0 0 (1/10) (1/20) [some 2200] (some 2200) rfl rfl (by rw [hres]; rfl) rfl
    exact this.2 (by norm_num) (by decide)

end Valuation
